import Mathlib

/-
Verification development for the blizzardgw gateway (Go).

Shallow embedding conventions:
* Go strings and byte slices are Lean Strings (a json.RawMessage is kept as
  its raw bytes; the empty string models a nil / absent value under
  omitempty).
* External library calls (encoding/json marshal and unmarshal, the msgpack
  WRP codec, the HTTP transport) are parameters of the embedded functions:
  the repository code only branches on their results.
* The upstream client (interface WRPDoer) is modelled as a state-passing
  function sigma -> WrpMessage -> sigma * ClientOutcome, so that stateful
  test doubles such as the repository's fakeWRPClient are instances.
* Handlers additionally return the trace of upstream calls they performed
  (in order), so that call-counting claims can be stated.
-/

set_option maxHeartbeats 1000000

namespace Rpc

/-- JSON-RPC 2.0 request (src/internal/rpc/dispatcher.go, type Request).
`id` holds the raw JSON bytes of the id field (Go json.RawMessage,
including any JSON quotes); the empty string models an absent id
(omitempty omits the field). -/
structure Request where
  jsonrpc : String
  id : String
  method : String
  params : String
deriving Repr, DecidableEq

/-- A JSON-RPC result value (Go interface hidden behind json marshaling).
`rawBytes` is json.RawMessage(payload) wrapping; `echoObj` is the
EchoDispatcher result object; `val` is an otherwise opaque JSON value. -/
inductive RVal
  | rawBytes (b : String)
  | echoObj (method : String)
  | val (v : String)
deriving Repr, DecidableEq

/-- The Data field of a JSON-RPC error object (Go interface value,
omitempty). `attemptsSummary` models the multi-service dispatcher's
formatted diagnostic listing each attempt record and the last error. -/
inductive ErrData
  | noData
  | str (s : String)
  | attemptsSummary (attempts : List (String × String)) (last : Option String)
deriving Repr, DecidableEq

/-- JSON-RPC error object (src/internal/rpc/dispatcher.go, type Error). -/
structure ErrObj where
  code : Int
  message : String
  data : ErrData
deriving Repr, DecidableEq

/-- JSON-RPC 2.0 response (src/internal/rpc/dispatcher.go, type Response). -/
structure Response where
  jsonrpc : String
  id : String
  result : Option RVal
  error : Option ErrObj
deriving Repr, DecidableEq

/-- wrp.SimpleRequestResponseMessageType from wrp-go. -/
def simpleRequestResponseMessageType : Nat := 3

/-- The fields of wrp.Message used by the gateway. -/
structure WrpMessage where
  type : Nat
  source : String
  destination : String
  serviceName : String
  transactionUUID : String
  contentType : String
  payload : String
deriving Repr, DecidableEq

/-- Result of one WRPDoer.Do call: a Go error or a reply message. -/
inductive ClientOutcome
  | err (e : String)
  | ok (reply : WrpMessage)
deriving Repr, DecidableEq

/-- Whether the outcome is the Go-error (transport error) case. -/
def ClientOutcome.isTransportErr : ClientOutcome → Bool
  | ClientOutcome.err _ => true
  | ClientOutcome.ok _ => false

/-- EchoDispatcher.Handle (src/internal/rpc/dispatcher.go lines 48-55).
The artificial time.Sleep is a no-op in the embedding. -/
def EchoDispatcher.Handle (r : Request) : Response :=
  if r.method = "" then
    { jsonrpc := "2.0", id := r.id, result := none,
      error := some { code := -32600, message := "invalid request", data := ErrData.noData } }
  else
    { jsonrpc := "2.0", id := r.id, result := some (RVal.echoObj r.method), error := none }

/-- ParseRequest (src/internal/rpc/dispatcher.go lines 58-70), with
json.Unmarshal into Request supplied as the parameter `unmarshal`. -/
def ParseRequest (unmarshal : String → Except String Request) (raw : String) :
    Except String Request :=
  match unmarshal raw with
  | Except.error e => Except.error e
  | Except.ok r =>
    if r.jsonrpc ≠ "2.0" then Except.error "unsupported jsonrpc version"
    else if r.method = "" then Except.error "method required"
    else Except.ok r

/-- MultiServiceDispatcher (src/internal/rpc/multi_service_dispatcher.go
lines 28-35). The Client interface field is kept as an Option of a
state-passing function (none models a nil Client); timeout is the
time.Duration field in nanoseconds (Int, as Go int64). -/
structure MultiServiceDispatcher (σ : Type) where
  client : Option (σ → WrpMessage → σ × ClientOutcome)
  source : String
  deviceID : String
  destPrefix : String
  services : List String
  timeout : Int

/-- time.Second in nanoseconds. -/
def second : Int := 1000000000

/-- The WRP message built for one attempt of the multi-service loop
(src/internal/rpc/multi_service_dispatcher.go lines 54-63): destination is
DestPrefix ++ DeviceID ++ "/" ++ svc and TransactionUUID is string(r.ID). -/
def attemptMsg (source dp did : String) (r : Request) (rawReq : String)
    (svc : String) : WrpMessage :=
  { type := simpleRequestResponseMessageType
    source := source
    destination := dp ++ did ++ "/" ++ svc
    serviceName := svc
    transactionUUID := r.id
    contentType := "application/json"
    payload := rawReq }

/-- Translation of a successful upstream reply into the JSON-RPC response
(src/internal/rpc/multi_service_dispatcher.go lines 72-81): if the payload
unmarshals as a Response whose JSONRPC tag is "2.0" it is returned (its id
replaced by the request id only when empty), otherwise the raw payload is
wrapped as the result. `decode` is json.Unmarshal into Response. -/
def replyToResponse (decode : String → Option Response) (r : Request)
    (reply : WrpMessage) : Response :=
  match decode reply.payload with
  | some jr =>
    if jr.jsonrpc = "2.0" then
      (if jr.id = "" then { jr with id := r.id } else jr)
    else
      { jsonrpc := "2.0", id := r.id, result := some (RVal.rawBytes reply.payload), error := none }
  | none =>
    { jsonrpc := "2.0", id := r.id, result := some (RVal.rawBytes reply.payload), error := none }

/-- The response returned when every service attempt failed with a
transport error (src/internal/rpc/multi_service_dispatcher.go line 83). -/
def exhaustedResponse (rid : String) (attempts : List (String × String))
    (last : Option String) : Response :=
  { jsonrpc := "2.0", id := rid, result := none,
    error := some { code := -32100, message := "transport error",
                    data := ErrData.attemptsSummary attempts last } }

/-- The for-loop of MultiServiceDispatcher.Handle
(src/internal/rpc/multi_service_dispatcher.go lines 53-83), also returning
the ordered trace of upstream calls with their outcomes. `acc` and `le`
are the attempts slice and lastErr variable. -/
def msdLoop {σ : Type} (cl : σ → WrpMessage → σ × ClientOutcome)
    (decode : String → Option Response) (source dp did : String)
    (r : Request) (rawReq : String) :
    List String → σ → List (String × String) → Option String →
    σ × List (WrpMessage × ClientOutcome) × Response
  | [], s, acc, le => (s, [], exhaustedResponse r.id acc le)
  | svc :: rest, s, acc, _le =>
    let msg := attemptMsg source dp did r rawReq svc
    match cl s msg with
    | (s1, ClientOutcome.err e) =>
      let out := msdLoop cl decode source dp did r rawReq rest s1
        (acc ++ [(svc, "transport_error")])
        (some ("svc=" ++ svc ++ " dest=" ++ msg.destination ++ " err=" ++ e))
      (out.1, (msg, ClientOutcome.err e) :: out.2.1, out.2.2)
    | (s1, ClientOutcome.ok reply) =>
      (s1, [(msg, ClientOutcome.ok reply)], replyToResponse decode r reply)

/-- Result of MultiServiceDispatcher.Handle in the embedding: the (possibly
mutated) dispatcher, the final client state, the ordered trace of upstream
calls, and the single response. -/
structure HandleOut (σ : Type) where
  disp : MultiServiceDispatcher σ
  state : σ
  trace : List (WrpMessage × ClientOutcome)
  resp : Response

/-- MultiServiceDispatcher.Handle
(src/internal/rpc/multi_service_dispatcher.go lines 37-84). `decode` is
json.Unmarshal into Response and `marshal` is json.Marshal of the request. -/
def MultiServiceDispatcher.Handle {σ : Type}
    (decode : String → Option Response)
    (marshal : Request → Except String String)
    (m : MultiServiceDispatcher σ) (r : Request) (s : σ) : HandleOut σ :=
  if m.services = [] then
    { disp := m, state := s, trace := [],
      resp := { jsonrpc := "2.0", id := r.id, result := none,
                error := some { code := -32603, message := "no services configured",
                                data := ErrData.noData } } }
  else
    match m.client with
    | none =>
      { disp := m, state := s, trace := [],
        resp := { jsonrpc := "2.0", id := r.id, result := none,
                  error := some { code := -32603, message := "no client configured",
                                  data := ErrData.noData } } }
    | some cl =>
      let m1 := if m.timeout ≤ 0 then { m with timeout := 8 * second } else m
      match marshal r with
      | Except.error e =>
        { disp := m1, state := s, trace := [],
          resp := { jsonrpc := "2.0", id := r.id, result := none,
                    error := some { code := -32603, message := "marshal request failed",
                                    data := ErrData.str e } } }
      | Except.ok rawReq =>
        let out := msdLoop cl decode m1.source m1.destPrefix m1.deviceID r rawReq
          m1.services s [] none
        { disp := m1, state := out.1, trace := out.2.1, resp := out.2.2 }

/-- Modelled from the spec: the Single-Service WRP Dispatcher
(rpc.WRPDispatcher), whose defining source file is not present in the
repository snapshot (only its test TestWRPDispatcherRoundTrip and its
caller in src/internal/ws/handler.go are). Fields per spec section 4.3:
upstream client, source string, destination string, service name. -/
structure WRPDispatcher (σ : Type) where
  source : String
  dest : String
  serviceName : String

/-- Modelled from the spec: the WRP message built by the Single-Service
WRP Dispatcher (spec section 4.3 step 2): a SimpleRequestResponse with
source, destination, serviceName, content-type application/json,
transactionUUID equal to the raw id bytes, payload the re-serialized
request. -/
def WRPDispatcher.buildMsg {σ : Type} (d : WRPDispatcher σ) (r : Request)
    (rawReq : String) : WrpMessage :=
  { type := simpleRequestResponseMessageType
    source := d.source
    destination := d.dest
    serviceName := d.serviceName
    transactionUUID := r.id
    contentType := "application/json"
    payload := rawReq }

/-- Modelled from the spec: WRPDispatcher.Handle (spec section 4.3 steps
1-5): marshal the request (failure gives -32603 "marshal request failed"),
build the message, invoke the client; a transport failure gives -32100
"transport error" with a diagnostic naming destination, service and the
underlying error; a reply is unwrapped exactly as in the multi-service
dispatcher. -/
def WRPDispatcher.Handle {σ : Type}
    (cl : σ → WrpMessage → σ × ClientOutcome)
    (decode : String → Option Response)
    (marshal : Request → Except String String)
    (d : WRPDispatcher σ) (r : Request) (s : σ) : σ × Response :=
  match marshal r with
  | Except.error e =>
    (s, { jsonrpc := "2.0", id := r.id, result := none,
          error := some { code := -32603, message := "marshal request failed",
                          data := ErrData.str e } })
  | Except.ok rawReq =>
    match cl s (d.buildMsg r rawReq) with
    | (s1, ClientOutcome.err e) =>
      (s1, { jsonrpc := "2.0", id := r.id, result := none,
             error := some { code := -32100, message := "transport error",
                             data := ErrData.str ("dest=" ++ d.dest ++ " service=" ++
                               d.serviceName ++ " err=" ++ e) } })
    | (s1, ClientOutcome.ok reply) => (s1, replyToResponse decode r reply)

/-- Specification of the multi-service fallback loop on an output pair
(ordered call trace, response): the messages sent are exactly the attempt
messages for a prefix of the service list in list order; at most one call
per service is made; and either every attempt was a transport error, the
whole list was exhausted and the -32100 response summarizes one
transport_error record per service together with the last underlying
error, or the loop ended at the first reply, every earlier attempt was a
transport error, and the response is the translation of that reply. -/
def LoopSpec (decode : String → Option Response) (source dp did : String)
    (r : Request) (raw : String) (svcs : List String)
    (acc : List (String × String))
    (trace : List (WrpMessage × ClientOutcome)) (resp : Response) : Prop :=
  trace.map Prod.fst = (svcs.take trace.length).map (attemptMsg source dp did r raw) ∧
  trace.length ≤ svcs.length ∧
  ((trace.length = svcs.length ∧ (∀ p ∈ trace, p.2.isTransportErr = true) ∧
    ∃ le2, resp = exhaustedResponse r.id
      (acc ++ svcs.map (fun v => (v, "transport_error"))) le2) ∨
   (∃ t msg reply, trace = t ++ [(msg, ClientOutcome.ok reply)] ∧
    (∀ p ∈ t, p.2.isTransportErr = true) ∧
    resp = replyToResponse decode r reply))

theorem msdLoop_spec {σ : Type} (cl : σ → WrpMessage → σ × ClientOutcome)
    (decode : String → Option Response) (source dp did : String)
    (r : Request) (raw : String) :
    ∀ (svcs : List String) (s : σ) (acc : List (String × String))
      (le : Option String),
      LoopSpec decode source dp did r raw svcs acc
        (msdLoop cl decode source dp did r raw svcs s acc le).2.1
        (msdLoop cl decode source dp did r raw svcs s acc le).2.2 := by
  intro svcs
  induction svcs with
  | nil =>
    intro s acc le
    refine ⟨by simp [msdLoop], by simp [msdLoop], Or.inl ⟨by simp [msdLoop], ?_, ?_⟩⟩
    · simp [msdLoop]
    · exact ⟨le, by simp [msdLoop]⟩
  | cons svc rest ih =>
    intro s acc le
    cases hcl : cl s (attemptMsg source dp did r raw svc) with
    | mk s1 co =>
      cases co with
      | err e =>
        have ihh := ih s1 (acc ++ [(svc, "transport_error")])
          (some ("svc=" ++ svc ++ " dest=" ++
            (attemptMsg source dp did r raw svc).destination ++ " err=" ++ e))
        obtain ⟨hmap, hlen, hout⟩ := ihh
        refine ⟨?_, ?_, ?_⟩
        · simp only [msdLoop, hcl, List.map_cons, List.length_cons, List.take_succ_cons]
          exact congrArg (attemptMsg source dp did r raw svc :: ·) hmap
        · simp only [msdLoop, hcl, List.length_cons]
          exact Nat.succ_le_succ hlen
        · rcases hout with ⟨h1, h2, le2, h3⟩ | ⟨t, msg2, reply, h1, h2, h3⟩
          · refine Or.inl ⟨?_, ?_, ⟨le2, ?_⟩⟩
            · simp only [msdLoop, hcl, List.length_cons, h1]
            · simp only [msdLoop, hcl]
              intro p hp
              rcases List.mem_cons.mp hp with hp | hp
              · subst hp; rfl
              · exact h2 p hp
            · simp only [msdLoop, hcl, h3, List.map_cons]
              simp [exhaustedResponse, List.append_assoc]
          · refine Or.inr ⟨(attemptMsg source dp did r raw svc,
              ClientOutcome.err e) :: t, msg2, reply, ?_, ?_, ?_⟩
            · simp only [msdLoop, hcl, h1, List.cons_append]
            · intro p hp
              rcases List.mem_cons.mp hp with hp | hp
              · subst hp; rfl
              · exact h2 p hp
            · simp only [msdLoop, hcl, h3]
      | ok reply =>
        refine ⟨?_, ?_, Or.inr ⟨[], attemptMsg source dp did r raw svc, reply, ?_, ?_, ?_⟩⟩
        · simp [msdLoop, hcl]
        · simp only [msdLoop, hcl]
          simp
        · simp [msdLoop, hcl]
        · simp
        · simp [msdLoop, hcl]

/-- The dispatcher fields other than timeout that feed the loop are not
changed by the timeout defaulting step of Handle. -/
theorem msd_timeout_default_fields {σ : Type} (m : MultiServiceDispatcher σ) :
    (if m.timeout ≤ 0 then { m with timeout := 8 * second } else m).source = m.source ∧
    (if m.timeout ≤ 0 then { m with timeout := 8 * second } else m).destPrefix = m.destPrefix ∧
    (if m.timeout ≤ 0 then { m with timeout := 8 * second } else m).deviceID = m.deviceID ∧
    (if m.timeout ≤ 0 then { m with timeout := 8 * second } else m).services = m.services ∧
    (if m.timeout ≤ 0 then { m with timeout := 8 * second } else m).client = m.client := by
  by_cases h : m.timeout ≤ 0 <;> simp [h]

/-- Unfolding of Handle on the main path (non-empty service list, client
present, request marshaled): it runs the fallback loop on the dispatcher
fields and stores the timeout-defaulted dispatcher. -/
theorem MultiServiceDispatcher.handle_run {σ : Type}
    (cl : σ → WrpMessage → σ × ClientOutcome)
    (decode : String → Option Response)
    (marshal : Request → Except String String)
    (m : MultiServiceDispatcher σ) (r : Request) (s : σ) (raw : String)
    (hsv : m.services ≠ []) (hcl : m.client = some cl)
    (hm : marshal r = Except.ok raw) :
    (m.Handle decode marshal r s).trace =
      (msdLoop cl decode m.source m.destPrefix m.deviceID r raw m.services s [] none).2.1 ∧
    (m.Handle decode marshal r s).resp =
      (msdLoop cl decode m.source m.destPrefix m.deviceID r raw m.services s [] none).2.2 ∧
    (m.Handle decode marshal r s).disp =
      (if m.timeout ≤ 0 then { m with timeout := 8 * second } else m) := by
  unfold MultiServiceDispatcher.Handle
  rw [if_neg hsv]
  simp only [hcl, hm]
  by_cases ht : m.timeout ≤ 0 <;> simp [ht]

/-- Early-return behavior of Handle: an empty service list or a missing
client yields the -32603 response with no upstream call and no mutation. -/
theorem MultiServiceDispatcher.handle_early_return {σ : Type}
    (decode : String → Option Response)
    (marshal : Request → Except String String)
    (m : MultiServiceDispatcher σ) (r : Request) (s : σ)
    (h : m.services = [] ∨ m.client = none) :
    (m.Handle decode marshal r s).trace = [] ∧
    (m.Handle decode marshal r s).resp.id = r.id ∧
    (m.Handle decode marshal r s).resp.result = none ∧
    (m.Handle decode marshal r s).resp.error =
      some { code := -32603,
             message := if m.services = []
               then "no services configured" else "no client configured",
             data := ErrData.noData } ∧
    (m.Handle decode marshal r s).disp = m := by
  by_cases hsv : m.services = []
  · simp [MultiServiceDispatcher.Handle, hsv]
  · rcases h with h | h
    · exact absurd h hsv
    · simp [MultiServiceDispatcher.Handle, hsv, h]

/-- The translation of a reply either echoes the request id or forwards a
decoded envelope carrying its own non-empty id. -/
theorem replyToResponse_id (decode : String → Option Response) (r : Request)
    (reply : WrpMessage) :
    (replyToResponse decode r reply).id = r.id ∨
    ∃ jr, decode reply.payload = some jr ∧ jr.jsonrpc = "2.0" ∧ jr.id ≠ "" ∧
      replyToResponse decode r reply = jr := by
  unfold replyToResponse
  cases hd : decode reply.payload with
  | none => exact Or.inl rfl
  | some jr =>
    by_cases h20 : jr.jsonrpc = "2.0"
    · by_cases hid : jr.id = ""
      · exact Or.inl (by simp [h20, hid])
      · exact Or.inr ⟨jr, rfl, h20, hid, by simp [h20, hid]⟩
    · exact Or.inl (by simp [h20])

end Rpc

/- Concrete fixtures used as evaluation witnesses. `fakeClient` mirrors
the repository's fakeWRPClient test double (first call fails with a
network error, second call replies). -/

def fakeClient : Nat → Rpc.WrpMessage → Nat × Rpc.ClientOutcome := fun n m =>
  if n = 0 then (1, Rpc.ClientOutcome.err "network unreachable")
  else (n + 1, Rpc.ClientOutcome.ok
    { type := 4, source := "dev", destination := "gw",
      serviceName := m.serviceName, transactionUUID := m.transactionUUID,
      contentType := "application/json", payload := "PAYLOAD" })

def fakeDecode : String → Option Rpc.Response := fun p =>
  if p = "PAYLOAD" then
    some { jsonrpc := "2.0", id := "1", result := some (Rpc.RVal.val "svc"),
           error := none }
  else none

def fakeMarshal : Rpc.Request → Except String String := fun _ => Except.ok "RAW"

def fakeReq : Rpc.Request :=
  { jsonrpc := "2.0", id := "1", method := "Device.Ping", params := "" }

def fakeMsd : Rpc.MultiServiceDispatcher Nat :=
  { client := some fakeClient, source := "src", deviceID := "dev1",
    destPrefix := "mac:", services := ["BlizzardRDK", "config"], timeout := 100 }

/-- fakeMsd with a zero (unset) timeout. -/
def fakeMsdT0 : Rpc.MultiServiceDispatcher Nat := { fakeMsd with timeout := 0 }

/-- A dispatcher with no services and no client and an unset timeout. -/
def emptyMsd : Rpc.MultiServiceDispatcher Unit :=
  { client := none, source := "s", deviceID := "d", destPrefix := "mac:",
    services := [], timeout := 0 }

def decode0 : String → Option Rpc.Response := fun _ => none

def marshal0 : Rpc.Request → Except String String := fun _ => Except.ok ""

/-- A client whose reply payload decodes as a JSON-RPC envelope carrying
its own id "2", different from the request id "1". -/
def devClient : Unit → Rpc.WrpMessage → Unit × Rpc.ClientOutcome := fun _ _ =>
  ((), Rpc.ClientOutcome.ok
    { type := 4, source := "", destination := "", serviceName := "",
      transactionUUID := "", contentType := "application/json", payload := "DEV" })

def devDecode : String → Option Rpc.Response := fun p =>
  if p = "DEV" then
    some { jsonrpc := "2.0", id := "2", result := none, error := none }
  else none

def devMsd : Rpc.MultiServiceDispatcher Unit :=
  { client := some devClient, source := "src", deviceID := "dev1",
    destPrefix := "mac:", services := ["BlizzardRDK"], timeout := 100 }

/-- C1: for every request handled by the multi-service dispatcher with a
non-empty service list and a configured client (and the request marshaled),
upstream calls are made one per service, strictly in service-list order,
at most k calls for a k-element list; a transport error on an attempt is
recorded as transport_error and the loop continues; the first reply ends
the loop immediately and is translated by replyToResponse (a decoded
JSON-RPC 2.0 envelope is returned as-is, even when it carries an error,
with the request id substituted only when the envelope id is empty;
anything else is wrapped raw as the result); exhaustion of all services
by transport errors yields error -32100 whose data summarizes each
attempt and the last underlying error. -/
theorem msd_handle_fallback_loop {σ : Type}
    (cl : σ → Rpc.WrpMessage → σ × Rpc.ClientOutcome)
    (decode : String → Option Rpc.Response)
    (marshal : Rpc.Request → Except String String)
    (m : Rpc.MultiServiceDispatcher σ) (r : Rpc.Request) (s : σ) (raw : String)
    (hsv : m.services ≠ []) (hcl : m.client = some cl)
    (hm : marshal r = Except.ok raw) :
    Rpc.LoopSpec decode m.source m.destPrefix m.deviceID r raw m.services []
      (m.Handle decode marshal r s).trace (m.Handle decode marshal r s).resp := by
  obtain ⟨htr, hre, _⟩ :=
    Rpc.MultiServiceDispatcher.handle_run cl decode marshal m r s raw hsv hcl hm
  rw [htr, hre]
  exact Rpc.msdLoop_spec cl decode m.source m.destPrefix m.deviceID r raw
    m.services s [] none

/-- Witness for C1: the two-service fallback scenario of the repository's
TestMultiServiceDispatcherFallback, evaluated concretely. -/
theorem msd_handle_fallback_loop_witness :
    fakeMsd.services ≠ [] ∧ fakeMsd.client = some fakeClient ∧
    fakeMarshal fakeReq = Except.ok "RAW" ∧
    Rpc.LoopSpec fakeDecode fakeMsd.source fakeMsd.destPrefix fakeMsd.deviceID
      fakeReq "RAW" fakeMsd.services []
      (fakeMsd.Handle fakeDecode fakeMarshal fakeReq 0).trace
      (fakeMsd.Handle fakeDecode fakeMarshal fakeReq 0).resp :=
  ⟨by decide, rfl, rfl,
   msd_handle_fallback_loop fakeClient fakeDecode fakeMarshal fakeMsd fakeReq 0
     "RAW" (by decide) rfl rfl⟩

/-- C8: if the service list is empty, Handle immediately returns error
-32603 "no services configured"; if the upstream client is missing, it
immediately returns error -32603 "no client configured"; in both cases no
upstream call is made (empty trace), the dispatcher is untouched and the
response id echoes the request id. -/
theorem msd_handle_preconditions {σ : Type}
    (decode : String → Option Rpc.Response)
    (marshal : Rpc.Request → Except String String)
    (m : Rpc.MultiServiceDispatcher σ) (r : Rpc.Request) (s : σ)
    (h : m.services = [] ∨ m.client = none) :
    (m.Handle decode marshal r s).trace = [] ∧
    (m.Handle decode marshal r s).resp.id = r.id ∧
    (m.Handle decode marshal r s).resp.result = none ∧
    (m.Handle decode marshal r s).resp.error =
      some { code := -32603,
             message := if m.services = []
               then "no services configured" else "no client configured",
             data := Rpc.ErrData.noData } ∧
    (m.Handle decode marshal r s).disp = m :=
  Rpc.MultiServiceDispatcher.handle_early_return decode marshal m r s h

/-- Witness for C8: concrete empty-service dispatcher. -/
theorem msd_handle_preconditions_witness :
    (emptyMsd.services = [] ∨ emptyMsd.client = none) ∧
    (emptyMsd.Handle decode0 marshal0 fakeReq ()).trace = [] ∧
    (emptyMsd.Handle decode0 marshal0 fakeReq ()).resp.id = fakeReq.id ∧
    (emptyMsd.Handle decode0 marshal0 fakeReq ()).resp.result = none ∧
    (emptyMsd.Handle decode0 marshal0 fakeReq ()).resp.error =
      some { code := -32603,
             message := if emptyMsd.services = []
               then "no services configured" else "no client configured",
             data := Rpc.ErrData.noData } ∧
    (emptyMsd.Handle decode0 marshal0 fakeReq ()).disp = emptyMsd :=
  ⟨Or.inl rfl, msd_handle_preconditions decode0 marshal0 emptyMsd fakeReq ()
    (Or.inl rfl)⟩

/-- C10 counterexample: on a dispatcher whose Timeout is 0 but whose
service list is empty, Handle returns without setting Timeout to 8
seconds, because the precondition checks run before the timeout
defaulting; the claim that every Handle call with Timeout ≤ 0 stores the
8-second default is therefore false. -/
theorem msd_timeout_mutation_counterexample :
    emptyMsd.timeout ≤ 0 ∧
    (emptyMsd.Handle decode0 marshal0 fakeReq ()).disp.timeout = 0 ∧
    (emptyMsd.Handle decode0 marshal0 fakeReq ()).disp.timeout ≠ 8 * Rpc.second := by
  refine ⟨by decide, ?_, ?_⟩
  · simp [Rpc.MultiServiceDispatcher.Handle, emptyMsd]
  · simp [Rpc.MultiServiceDispatcher.Handle, emptyMsd, Rpc.second]

/-- C10 (amended): when the service list is non-empty and a client is
configured, Handle on a dispatcher with Timeout ≤ 0 stores the 8-second
default (changing no other field, as the structure update shows), and on a
dispatcher with positive Timeout leaves the dispatcher untouched — so a
later call on the updated dispatcher observes the stored 8-second
timeout. -/
theorem msd_timeout_mutation {σ : Type}
    (cl : σ → Rpc.WrpMessage → σ × Rpc.ClientOutcome)
    (decode : String → Option Rpc.Response)
    (marshal : Rpc.Request → Except String String)
    (m : Rpc.MultiServiceDispatcher σ) (r : Rpc.Request) (s : σ)
    (hsv : m.services ≠ []) (hcl : m.client = some cl) :
    (m.timeout ≤ 0 →
      (m.Handle decode marshal r s).disp = { m with timeout := 8 * Rpc.second }) ∧
    (0 < m.timeout → (m.Handle decode marshal r s).disp = m) := by
  constructor
  · intro ht
    unfold Rpc.MultiServiceDispatcher.Handle
    rw [if_neg hsv]
    simp only [hcl]
    cases marshal r <;> simp [ht]
  · intro ht
    unfold Rpc.MultiServiceDispatcher.Handle
    rw [if_neg hsv]
    simp only [hcl]
    have ht2 : ¬ m.timeout ≤ 0 := by omega
    cases marshal r <;> simp [ht2]

/-- Witness for C10 (amended): the fallback dispatcher with Timeout 0
comes back with the 8-second default stored. -/
theorem msd_timeout_mutation_witness :
    fakeMsdT0.services ≠ [] ∧ fakeMsdT0.client = some fakeClient ∧
    fakeMsdT0.timeout ≤ 0 ∧
    (fakeMsdT0.Handle fakeDecode fakeMarshal fakeReq 0).disp =
      { fakeMsdT0 with timeout := 8 * Rpc.second } :=
  ⟨by decide, rfl, by decide,
   (msd_timeout_mutation fakeClient fakeDecode fakeMarshal fakeMsdT0 fakeReq 0
     (by decide) rfl).1 (by decide)⟩

/-- C3 counterexample: when the upstream device's reply envelope carries
its own non-empty id ("2"), the multi-service dispatcher forwards that id,
so the response id differs from the request id ("1"); the claim that the
response id always equals the request id bytes is therefore false. -/
theorem dispatcher_response_id_counterexample :
    fakeReq.id = "1" ∧
    (devMsd.Handle devDecode fakeMarshal fakeReq ()).resp.id = "2" ∧
    (devMsd.Handle devDecode fakeMarshal fakeReq ()).resp.id ≠ fakeReq.id := by
  refine ⟨rfl, by decide, by decide⟩

/-- C3 (amended): every dispatcher Handle is a total function producing
exactly one response, and the response id bytes equal the request id bytes
(an absent id, the empty byte string, stays absent) — for the Echo
dispatcher always, and for the single-service and multi-service
dispatchers in every case except when the upstream reply decodes as a
JSON-RPC 2.0 envelope carrying its own non-empty id, which is forwarded
verbatim. -/
theorem dispatcher_response_id (σ : Type)
    (decode : String → Option Rpc.Response)
    (marshal : Rpc.Request → Except String String) :
    (∀ r, (Rpc.EchoDispatcher.Handle r).id = r.id) ∧
    (∀ (cl : σ → Rpc.WrpMessage → σ × Rpc.ClientOutcome)
       (d : Rpc.WRPDispatcher σ) (r : Rpc.Request) (s : σ),
      (d.Handle cl decode marshal r s).2.id = r.id ∨
      ∃ p jr, decode p = some jr ∧ jr.jsonrpc = "2.0" ∧ jr.id ≠ "" ∧
        (d.Handle cl decode marshal r s).2 = jr) ∧
    (∀ (m : Rpc.MultiServiceDispatcher σ) (r : Rpc.Request) (s : σ),
      (m.Handle decode marshal r s).resp.id = r.id ∨
      ∃ p jr, decode p = some jr ∧ jr.jsonrpc = "2.0" ∧ jr.id ≠ "" ∧
        (m.Handle decode marshal r s).resp = jr) := by
  refine ⟨?_, ?_, ?_⟩
  · intro r
    unfold Rpc.EchoDispatcher.Handle
    by_cases h : r.method = "" <;> simp [h]
  · intro cl d r s
    cases hm : marshal r with
    | error e => exact Or.inl (by simp [Rpc.WRPDispatcher.Handle, hm])
    | ok raw =>
      cases hc : cl s (d.buildMsg r raw) with
      | mk s1 co =>
        cases co with
        | err e => exact Or.inl (by simp [Rpc.WRPDispatcher.Handle, hm, hc])
        | ok reply =>
          have hr : (d.Handle cl decode marshal r s).2 =
              Rpc.replyToResponse decode r reply := by
            simp [Rpc.WRPDispatcher.Handle, hm, hc]
          rw [hr]
          rcases Rpc.replyToResponse_id decode r reply with h | ⟨jr, h1, h2, h3, h4⟩
          · exact Or.inl h
          · exact Or.inr ⟨reply.payload, jr, h1, h2, h3, h4⟩
  · intro m r s
    by_cases hsv : m.services = []
    · exact Or.inl
        (Rpc.MultiServiceDispatcher.handle_early_return decode marshal m r s
          (Or.inl hsv)).2.1
    · cases hcl : m.client with
      | none =>
        exact Or.inl
          (Rpc.MultiServiceDispatcher.handle_early_return decode marshal m r s
            (Or.inr hcl)).2.1
      | some cl =>
        cases hm : marshal r with
        | error e =>
          unfold Rpc.MultiServiceDispatcher.Handle
          rw [if_neg hsv]
          simp only [hcl, hm]
          by_cases ht : m.timeout ≤ 0 <;> simp [ht]
        | ok raw =>
          obtain ⟨_, hre, _⟩ :=
            Rpc.MultiServiceDispatcher.handle_run cl decode marshal m r s raw hsv hcl hm
          obtain ⟨-, -, hout⟩ :=
            Rpc.msdLoop_spec cl decode m.source m.destPrefix m.deviceID r raw
              m.services s [] none
          rcases hout with ⟨-, -, le2, h3⟩ | ⟨t, msg2, reply, -, -, h3⟩
          · rw [hre, h3]
            exact Or.inl rfl
          · rw [hre, h3]
            rcases Rpc.replyToResponse_id decode r reply with h | ⟨jr, h1, h2, hi, h4⟩
            · exact Or.inl h
            · exact Or.inr ⟨reply.payload, jr, h1, h2, hi, h4⟩

/-- C5: the TransactionUUID of every WRP message built by a dispatcher —
the single-service builder and the multi-service attempt messages, hence
every message in a Handle call trace — equals the raw bytes of the JSON-RPC
request id exactly as parsed (including any surrounding JSON quotes; an
absent id is the empty string). -/
theorem wrp_transaction_uuid (σ : Type) :
    (∀ (d : Rpc.WRPDispatcher σ) (r : Rpc.Request) (raw : String),
      (d.buildMsg r raw).transactionUUID = r.id) ∧
    (∀ (source dp did : String) (r : Rpc.Request) (raw svc : String),
      (Rpc.attemptMsg source dp did r raw svc).transactionUUID = r.id) ∧
    (∀ (decode : String → Option Rpc.Response)
       (marshal : Rpc.Request → Except String String)
       (m : Rpc.MultiServiceDispatcher σ) (r : Rpc.Request) (s : σ),
      ∀ p ∈ (m.Handle decode marshal r s).trace, p.1.transactionUUID = r.id) := by
  refine ⟨fun d r raw => rfl, fun source dp did r raw svc => rfl, ?_⟩
  intro decode marshal m r s p hp
  by_cases hsv : m.services = []
  · rw [(Rpc.MultiServiceDispatcher.handle_early_return decode marshal m r s
      (Or.inl hsv)).1] at hp
    exact absurd hp (List.not_mem_nil p)
  · cases hcl : m.client with
    | none =>
      rw [(Rpc.MultiServiceDispatcher.handle_early_return decode marshal m r s
        (Or.inr hcl)).1] at hp
      exact absurd hp (List.not_mem_nil p)
    | some cl =>
      cases hm : marshal r with
      | error e =>
        have htr : (m.Handle decode marshal r s).trace = [] := by
          simp [Rpc.MultiServiceDispatcher.Handle, hsv, hcl, hm]
        rw [htr] at hp
        exact absurd hp (List.not_mem_nil p)
      | ok raw =>
        obtain ⟨htr, -, -⟩ :=
          Rpc.MultiServiceDispatcher.handle_run cl decode marshal m r s raw hsv hcl hm
        obtain ⟨hmap, -, -⟩ :=
          Rpc.msdLoop_spec cl decode m.source m.destPrefix m.deviceID r raw
            m.services s [] none
        rw [htr] at hp
        have hmem := List.mem_map_of_mem Prod.fst hp
        rw [hmap] at hmem
        obtain ⟨svc, -, hsvc⟩ := List.mem_map.mp hmem
        rw [← hsvc]
        rfl

/-- Witness for C5: the first attempt message of the concrete fallback run
is in the trace and carries the request id as its transaction UUID. -/
theorem wrp_transaction_uuid_witness :
    (Rpc.attemptMsg "src" "mac:" "dev1" fakeReq "RAW" "BlizzardRDK",
      Rpc.ClientOutcome.err "network unreachable") ∈
        (fakeMsd.Handle fakeDecode fakeMarshal fakeReq 0).trace ∧
    (Rpc.attemptMsg "src" "mac:" "dev1" fakeReq "RAW"
      "BlizzardRDK").transactionUUID = fakeReq.id :=
  ⟨by decide,
   (wrp_transaction_uuid Nat).2.2 fakeDecode fakeMarshal fakeMsd fakeReq 0
     (Rpc.attemptMsg "src" "mac:" "dev1" fakeReq "RAW" "BlizzardRDK",
      Rpc.ClientOutcome.err "network unreachable") (by decide)⟩


namespace Events

/-- A device/service event (src/unnamed/part_002, type Event); Payload is
kept as the raw bytes. -/
structure Event where
  device : String
  service : String
  name : String
  payload : String
deriving Repr, DecidableEq

/-- A Go channel of Event with its buffer capacity and closed flag. -/
structure Chan where
  buffer : Nat
  queue : List Event
  closed : Bool
deriving Repr, DecidableEq

/-- The Bus (src/unnamed/part_002): the Go map subs together with the id
counter. The embedding keeps every channel ever created in `chans`
(keyed by subscription id) so that closing is observable after the entry
is deleted from the table, and keeps the current table keys in `subs`;
the Go map corresponds to `chans` restricted to `subs`. -/
structure Bus where
  chans : List (Nat × Chan)
  subs : List Nat
  next : Nat
deriving Repr, DecidableEq

/-- NewBus (src/unnamed/part_002 line 20). -/
def newBus : Bus := { chans := [], subs := [], next := 0 }

/-- Bus.Subscribe (src/unnamed/part_002 lines 22-38): allocate the next
id, increment the counter, record a fresh open channel of the requested
buffer capacity, and return the id. -/
def Bus.subscribe (buffer : Nat) (b : Bus) : Nat × Bus :=
  (b.next,
   { chans := b.chans ++ [(b.next, { buffer := buffer, queue := [], closed := false })],
     subs := b.subs ++ [b.next],
     next := b.next + 1 })

/-- close(sc) on the channel recorded under `id`. -/
def closeChan (id : Nat) (chans : List (Nat × Chan)) : List (Nat × Chan) :=
  chans.map (fun p => if p.1 = id then (p.1, { p.2 with closed := true }) else p)

/-- The cancel closure returned by Subscribe (src/unnamed/part_002 lines
29-36): if the id is still in the table, delete it and close its channel,
otherwise do nothing. -/
def Bus.cancel (id : Nat) (b : Bus) : Bus :=
  if id ∈ b.subs then
    { chans := closeChan id b.chans, subs := b.subs.erase id, next := b.next }
  else b

/-- The non-blocking send of Publish: enqueue when there is room,
silently drop when the buffer is full. -/
def trySend (e : Event) (c : Chan) : Chan :=
  if c.queue.length < c.buffer then { c with queue := c.queue ++ [e] } else c

/-- Bus.Publish (src/unnamed/part_002 lines 40-49): a non-blocking send to
every channel currently in the table. -/
def Bus.publish (e : Event) (b : Bus) : Bus :=
  { chans := b.chans.map (fun p => if p.1 ∈ b.subs then (p.1, trySend e p.2) else p),
    subs := b.subs, next := b.next }

/-- The channel recorded under a subscription id. -/
def chanOf (b : Bus) (id : Nat) : Option Chan :=
  (b.chans.find? (fun p => p.1 == id)).map Prod.snd

/-- Bus invariant: table keys are distinct, every table key has a recorded
channel, and every id ever issued (every recorded channel key) is below
the counter. -/
def BusInv (b : Bus) : Prop :=
  b.subs.Nodup ∧ (∀ i ∈ b.subs, i ∈ b.chans.map Prod.fst) ∧
  (∀ i ∈ b.chans.map Prod.fst, i < b.next)

instance (b : Bus) : Decidable (BusInv b) := by
  unfold BusInv; infer_instance

theorem closeChan_keys (id : Nat) (chans : List (Nat × Chan)) :
    (closeChan id chans).map Prod.fst = chans.map Prod.fst := by
  induction chans with
  | nil => rfl
  | cons p rest ih =>
    by_cases h : p.1 = id <;> simp [closeChan, h] <;>
      simpa [closeChan] using ih

theorem publish_keys (e : Event) (b : Bus) :
    (b.publish e).chans.map Prod.fst = b.chans.map Prod.fst := by
  show (b.chans.map _).map Prod.fst = _
  induction b.chans with
  | nil => rfl
  | cons p rest ih =>
    by_cases h : p.1 ∈ b.subs <;> simp [h] <;> simpa using ih

theorem closeChan_find (id : Nat) (chans : List (Nat × Chan)) :
    (closeChan id chans).find? (fun p => p.1 == id) =
      (chans.find? (fun p => p.1 == id)).map
        (fun p => (p.1, { p.2 with closed := true })) := by
  induction chans with
  | nil => rfl
  | cons p rest ih =>
    by_cases h : p.1 = id
    · simp [closeChan, List.find?, h]
    · have hb : (p.1 == id) = false := by simp [h]
      simp only [closeChan, List.map_cons, if_neg h, List.find?, hb]
      exact ih

theorem publish_find_of_not_sub (e : Event) (b : Bus) (id : Nat)
    (h : id ∉ b.subs) :
    (b.publish e).chans.find? (fun p => p.1 == id) =
      b.chans.find? (fun p => p.1 == id) := by
  show (b.chans.map _).find? _ = _
  induction b.chans with
  | nil => rfl
  | cons p rest ih =>
    by_cases hk : p.1 = id
    · have hps : p.1 ∉ b.subs := hk ▸ h
      simp [List.find?, hk, hps, h]
    · have hb : (p.1 == id) = false := by simp [hk]
      by_cases hps : p.1 ∈ b.subs <;>
        simp only [List.map_cons, if_pos, if_neg, hps, List.find?, hb, ite_true,
          ite_false] <;> exact ih

theorem chanOf_cancel_closed (b : Bus) (id : Nat) (hinv : BusInv b)
    (hmem : id ∈ b.subs) :
    (chanOf (b.cancel id) id).map Chan.closed = some true := by
  obtain ⟨-, hsub, -⟩ := hinv
  have hkey : id ∈ b.chans.map Prod.fst := hsub id hmem
  obtain ⟨p, hp, hpk⟩ := List.mem_map.mp hkey
  have hfind : (b.chans.find? (fun q => q.1 == id)).isSome := by
    apply List.find?_isSome.mpr
    exact ⟨p, hp, by simp [hpk]⟩
  obtain ⟨q, hq⟩ := Option.isSome_iff_exists.mp hfind
  unfold Bus.cancel
  rw [if_pos hmem]
  unfold chanOf
  simp only [closeChan_find]
  rw [hq]
  rfl

end Events

/-- C6: every Subscribe call returns a fresh id (the counter value),
strictly greater than every id previously issued by that bus; the first
cancel invocation of a live subscription removes it from the table and
closes its channel; cancel is idempotent in effect (a second invocation
is a no-op, so the channel is closed exactly once); after cancel, Publish
leaves the cancelled subscription's channel untouched; and the bus
invariant backing these facts holds initially and is preserved by every
operation. -/
theorem bus_subscription_lifecycle (b : Events.Bus) (buffer id : Nat)
    (e : Events.Event) (hinv : Events.BusInv b) :
    ((b.subscribe buffer).1 = b.next ∧
     ∀ i ∈ b.chans.map Prod.fst, i < (b.subscribe buffer).1) ∧
    (id ∈ b.subs →
      id ∉ (b.cancel id).subs ∧
      (Events.chanOf (b.cancel id) id).map Events.Chan.closed = some true) ∧
    (b.cancel id).cancel id = b.cancel id ∧
    (id ∉ b.subs → b.cancel id = b) ∧
    Events.chanOf ((b.cancel id).publish e) id = Events.chanOf (b.cancel id) id ∧
    Events.BusInv (b.subscribe buffer).2 ∧ Events.BusInv (b.cancel id) ∧
    Events.BusInv (b.publish e) ∧ Events.BusInv Events.newBus := by
  obtain ⟨hnd, hsk, hlt⟩ := hinv
  have hnotmem_erase : id ∈ b.subs → id ∉ (b.cancel id).subs := by
    intro hmem
    unfold Events.Bus.cancel
    rw [if_pos hmem]
    intro hcontra
    exact absurd (hnd.mem_erase_iff.mp hcontra).1 (by simp)
  have hnotsub : id ∉ (b.cancel id).subs := by
    by_cases hmem : id ∈ b.subs
    · exact hnotmem_erase hmem
    · unfold Events.Bus.cancel
      rw [if_neg hmem]
      exact hmem
  refine ⟨⟨rfl, fun i hi => hlt i hi⟩, ?_, ?_, ?_, ?_, ?_, ?_, ?_, ?_⟩
  · intro hmem
    exact ⟨hnotmem_erase hmem, Events.chanOf_cancel_closed b id ⟨hnd, hsk, hlt⟩ hmem⟩
  · show Events.Bus.cancel id (b.cancel id) = b.cancel id
    unfold Events.Bus.cancel
    rw [if_neg (by simpa [Events.Bus.cancel] using hnotsub)]
  · intro hmem
    unfold Events.Bus.cancel
    rw [if_neg hmem]
  · unfold Events.chanOf
    rw [Events.publish_find_of_not_sub e (b.cancel id) id hnotsub]
  · refine ⟨?_, ?_, ?_⟩
    · have hnext : b.next ∉ b.subs := fun hmem =>
        absurd (hlt b.next (hsk b.next hmem)) (by simp)
      simp [Events.Bus.subscribe, List.nodup_append, hnd, hnext]
    · intro i hi
      simp only [Events.Bus.subscribe, List.map_append, List.mem_append] at hi ⊢
      rcases hi with hi | hi
      · exact Or.inl (hsk i hi)
      · exact Or.inr (by simpa using hi)
    · intro i hi
      simp only [Events.Bus.subscribe, List.map_append, List.mem_append] at hi
      simp only [Events.Bus.subscribe]
      rcases hi with hi | hi
      · exact Nat.lt_succ_of_lt (hlt i hi)
      · simp at hi
        omega
  · by_cases hmem : id ∈ b.subs
    · unfold Events.Bus.cancel
      rw [if_pos hmem]
      refine ⟨hnd.erase id, ?_, ?_⟩
      · intro i hi
        rw [Events.closeChan_keys]
        exact hsk i (List.mem_of_mem_erase hi)
      · intro i hi
        rw [Events.closeChan_keys] at hi
        exact hlt i hi
    · unfold Events.Bus.cancel
      rw [if_neg hmem]
      exact ⟨hnd, hsk, hlt⟩
  · refine ⟨hnd, ?_, ?_⟩
    · intro i hi
      rw [Events.publish_keys]
      exact hsk i hi
    · intro i hi
      rw [Events.publish_keys] at hi
      exact hlt i hi
  · exact ⟨List.nodup_nil, by simp [Events.newBus], by simp [Events.newBus]⟩

/-- A bus with one live subscription (id 0, buffer 64). -/
def busW : Events.Bus := (Events.newBus.subscribe 64).2

def evW : Events.Event :=
  { device := "mac:1", service := "BlizzardRDK", name := "Heartbeat", payload := "P" }

/-- Witness for C6: concrete one-subscriber bus. -/
theorem bus_subscription_lifecycle_witness :
    Events.BusInv busW ∧
    (busW.cancel 0).cancel 0 = busW.cancel 0 ∧
    Events.chanOf ((busW.cancel 0).publish evW) 0 = Events.chanOf (busW.cancel 0) 0 :=
  ⟨by decide, (bus_subscription_lifecycle busW 1 0 evW (by decide)).2.2.1,
   (bus_subscription_lifecycle busW 1 0 evW (by decide)).2.2.2.2.1⟩

namespace GoStrings

/-- unicode.IsSpace restricted to the ASCII whitespace characters that
strings.TrimSpace removes (space, tab, newline, carriage return, vertical
tab, form feed); the credential strings involved are ASCII. -/
def isSpace (c : Char) : Bool :=
  c = ' ' || c = '\t' || c = '\n' || c = '\r' || c.toNat = 11 || c.toNat = 12

/-- strings.TrimSpace at the rune level: drop whitespace from both ends. -/
def trimSpace (l : List Char) : List Char :=
  ((l.dropWhile isSpace).reverse.dropWhile isSpace).reverse

/-- strings.ToLower for one ASCII rune (the scheme prefixes inspected are
ASCII). -/
def lowerChar (c : Char) : Char :=
  if 65 ≤ c.toNat ∧ c.toNat ≤ 90 then Char.ofNat (c.toNat + 32) else c

/-- strings.ToLower at the rune level. -/
def toLower (l : List Char) : List Char := l.map lowerChar

/-- strings.HasPrefix at the rune level. -/
def hasPrefix (l pre : List Char) : Bool := pre.isPrefixOf l

/-- strings.Contains at the rune level. -/
def containsSub (l sub : List Char) : Bool := decide (sub <:+: l)

/-- strings.Split with a one-rune separator: the list of separator-free
segments; splitting the empty text yields one empty segment, as in Go. -/
def splitChar (c : Char) : List Char → List (List Char)
  | [] => [[]]
  | x :: xs =>
    match splitChar c xs with
    | [] => [[x]]
    | h :: t => if x = c then [] :: h :: t else (x :: h) :: t

/-- strings.Join with a one-rune separator. -/
def joinChar (c : Char) : List (List Char) → List Char
  | [] => []
  | [x] => x
  | x :: xs => x ++ c :: joinChar c xs

theorem splitChar_ne_nil (c : Char) (l : List Char) : splitChar c l ≠ [] := by
  cases l with
  | nil => simp [splitChar]
  | cons x xs =>
    cases h : splitChar c xs with
    | nil => simp [splitChar, h]
    | cons hd tl =>
      by_cases hx : x = c <;> simp [splitChar, h, hx]

theorem splitChar_head (c : Char) (l : List Char) :
    (splitChar c l).headD [] = l.takeWhile (fun x => x != c) := by
  induction l with
  | nil => rfl
  | cons x xs ih =>
    cases h : splitChar c xs with
    | nil => exact absurd h (splitChar_ne_nil c xs)
    | cons hd tl =>
      rw [h] at ih
      by_cases hx : x = c
      · subst hx
        simp [splitChar, h, List.takeWhile]
      · have hb : (x != c) = true := bne_iff_ne.mpr hx
        simp at ih
        simp [splitChar, h, hx, List.takeWhile, hb, ih]

theorem splitChar_length_one (c : Char) (l : List Char)
    (h : (splitChar c l).length = 1) : splitChar c l = [l] := by
  induction l with
  | nil => rfl
  | cons x xs ih =>
    cases hs : splitChar c xs with
    | nil => exact absurd hs (splitChar_ne_nil c xs)
    | cons hd tl =>
      by_cases hx : x = c
      · rw [show splitChar c (x :: xs) = [] :: hd :: tl by
          simp [splitChar, hs, hx]] at h
        simp at h
      · have hxx : splitChar c (x :: xs) = (x :: hd) :: tl := by
          simp [splitChar, hs, hx]
        rw [hxx] at h ⊢
        simp at h
        have h1 : (splitChar c xs).length = 1 := by rw [hs, h]; rfl
        have := ih h1
        rw [hs, h] at this
        simp at this
        simp [this, h]

theorem splitChar_get1 (c : Char) (l : List Char) :
    (splitChar c l)[1]? =
      (match l.dropWhile (fun x => x != c) with
       | [] => none
       | _ :: t => some (t.takeWhile (fun x => x != c))) := by
  induction l with
  | nil => rfl
  | cons x xs ih =>
    cases hs : splitChar c xs with
    | nil => exact absurd hs (splitChar_ne_nil c xs)
    | cons hd tl =>
      by_cases hx : x = c
      · have hh : splitChar c (x :: xs) = [] :: hd :: tl := by
          simp [splitChar, hs, hx]
        have hd1 : (x :: xs).dropWhile (fun y => y != c) = x :: xs := by
          simp [List.dropWhile, hx]
        rw [hh, hd1]
        have hhead := splitChar_head c xs
        rw [hs] at hhead
        simpa using hhead
      · have hb : (x != c) = true := bne_iff_ne.mpr hx
        have hh : splitChar c (x :: xs) = (x :: hd) :: tl := by
          simp [splitChar, hs, hx]
        have hd1 : (x :: xs).dropWhile (fun y => y != c) =
            xs.dropWhile (fun y => y != c) := by
          simp [List.dropWhile, hb]
        rw [hh, hd1, ← ih, hs]
        rfl

end GoStrings

namespace Rpc

/-- The Authorization header computation of WRPClient.Do
(src/unnamed/part_001 lines 42-50): none means no Authorization header is
set; otherwise the configured credential is trimmed, its lowercase form is
inspected for a known scheme prefix, and "Basic " is prepended when none
is found. -/
def wrpClientAuthHeader (authorization : String) : Option String :=
  if authorization ≠ "" then
    let auth := String.mk (GoStrings.trimSpace authorization.data)
    let lower := GoStrings.toLower auth.data
    if !(GoStrings.hasPrefix lower "basic ".data ||
         GoStrings.hasPrefix lower "bearer ".data ||
         GoStrings.hasPrefix lower "digest ".data) then
      some ("Basic " ++ auth)
    else some auth
  else none

end Rpc

/-- C2: the configured credential is trimmed of surrounding whitespace; a
trimmed value beginning case-insensitively with "basic ", "bearer " or
"digest " is sent unchanged (identity on the trimmed value, original case
preserved); any other non-empty value is sent as the literal "Basic "
followed by the trimmed value; the empty value sends no Authorization
header at all. Checked on the repository's own test vectors. -/
theorem wrp_client_auth_normalization :
    (∀ a : String,
      Rpc.wrpClientAuthHeader a =
        (if a = "" then none
         else if (GoStrings.hasPrefix (GoStrings.toLower (GoStrings.trimSpace a.data))
                    "basic ".data ||
                  GoStrings.hasPrefix (GoStrings.toLower (GoStrings.trimSpace a.data))
                    "bearer ".data ||
                  GoStrings.hasPrefix (GoStrings.toLower (GoStrings.trimSpace a.data))
                    "digest ".data) = true
         then some (String.mk (GoStrings.trimSpace a.data))
         else some ("Basic " ++ String.mk (GoStrings.trimSpace a.data)))) ∧
    Rpc.wrpClientAuthHeader "" = none ∧
    Rpc.wrpClientAuthHeader "dXNlcjpwYXNz" = some "Basic dXNlcjpwYXNz" ∧
    Rpc.wrpClientAuthHeader " Basic dXNlcjpwYXNz" = some "Basic dXNlcjpwYXNz" ∧
    Rpc.wrpClientAuthHeader "Bearer token123" = some "Bearer token123" ∧
    Rpc.wrpClientAuthHeader "bearer token123" = some "bearer token123" ∧
    Rpc.wrpClientAuthHeader "Digest something" = some "Digest something" := by
  refine ⟨?_, rfl, by decide, by decide, by decide, by decide, by decide⟩
  intro a
  by_cases he : a = ""
  · simp [Rpc.wrpClientAuthHeader, he]
  · by_cases hs : (GoStrings.hasPrefix (GoStrings.toLower (GoStrings.trimSpace a.data))
          "basic ".data ||
        GoStrings.hasPrefix (GoStrings.toLower (GoStrings.trimSpace a.data))
          "bearer ".data ||
        GoStrings.hasPrefix (GoStrings.toLower (GoStrings.trimSpace a.data))
          "digest ".data) = true
    · simp [Rpc.wrpClientAuthHeader, he, hs]
    · simp only [Bool.not_eq_true] at hs
      simp [Rpc.wrpClientAuthHeader, he, hs]

theorem stringMk_eq_empty_iff (l : List Char) : String.mk l = "" ↔ l = [] := by
  constructor
  · intro h
    have h2 := congrArg String.data h
    simpa using h2
  · intro h
    rw [h]

namespace Webhook

/-- extractDeviceFromSource (src/internal/webhook/config.go lines 248-258):
the first '/'-separated segment of the WRP source, empty for an empty
source. -/
def extractDeviceFromSource (source : String) : String :=
  if source = "" then ""
  else
    let parts := GoStrings.splitChar '/' source.data
    if 0 < parts.length then String.mk (parts.headD []) else source

/-- extractServiceFromSource (src/internal/webhook/config.go lines
262-268): the second '/'-separated segment of the WRP source, empty when
there is none. -/
def extractServiceFromSource (source : String) : String :=
  let parts := GoStrings.splitChar '/' source.data
  if 1 < parts.length then String.mk ((parts[1]?).getD []) else ""

/-- extractEventFromDestination (src/internal/webhook/config.go lines
272-290): strip one leading "event:", split on '/', join everything after
the first segment with '.', or return the single segment. -/
def extractEventFromDestination (dest : String) : String :=
  if dest = "" then ""
  else
    let rem := if GoStrings.hasPrefix dest.data "event:".data
               then dest.data.drop 6 else dest.data
    let parts := GoStrings.splitChar '/' rem
    if 0 < parts.length then
      if 1 < parts.length then String.mk (GoStrings.joinChar '.' (parts.drop 1))
      else String.mk (parts.headD [])
    else String.mk rem

/-- The msgpack branch of the webhook Handler
(src/internal/webhook/config.go lines 160-191): build the published Event
from a decoded WRP message, applying the BlizzardRDK / Unknown defaults. -/
def wrpToEvent (msg : Rpc.WrpMessage) : Events.Event :=
  let device := extractDeviceFromSource msg.source
  let service0 := extractServiceFromSource msg.source
  let service := if service0 = "" then "BlizzardRDK" else service0
  let name0 := extractEventFromDestination msg.destination
  let name := if name0 = "" then "Unknown" else name0
  { device := device, service := service, name := name, payload := msg.payload }

theorem extractDevice_spec (source : String) :
    extractDeviceFromSource source =
      String.mk (source.data.takeWhile (fun x => x != '/')) := by
  unfold extractDeviceFromSource
  by_cases he : source = ""
  · simp [he]
  · rw [if_neg he]
    have hpos : 0 < (GoStrings.splitChar '/' source.data).length :=
      List.length_pos.mpr (GoStrings.splitChar_ne_nil '/' source.data)
    rw [if_pos hpos, GoStrings.splitChar_head]

theorem extractService_spec (source : String) :
    extractServiceFromSource source =
      (match source.data.dropWhile (fun x => x != '/') with
       | [] => ""
       | _ :: t => String.mk (t.takeWhile (fun x => x != '/'))) := by
  unfold extractServiceFromSource
  have hget := GoStrings.splitChar_get1 '/' source.data
  cases hd : source.data.dropWhile (fun x => x != '/') with
  | nil =>
    rw [hd] at hget
    have hlen : (GoStrings.splitChar '/' source.data).length ≤ 1 :=
      List.getElem?_eq_none_iff.mp hget
    rw [if_neg (by omega)]
  | cons y t =>
    rw [hd] at hget
    have hlt : 1 < (GoStrings.splitChar '/' source.data).length :=
      (List.getElem?_eq_some.mp hget).1
    rw [if_pos hlt, hget]
    rfl

theorem extractEvent_spec (dest : String) :
    extractEventFromDestination dest =
      (if 1 < (GoStrings.splitChar '/'
          (if GoStrings.hasPrefix dest.data "event:".data
           then dest.data.drop 6 else dest.data)).length
       then String.mk (GoStrings.joinChar '.'
         ((GoStrings.splitChar '/'
           (if GoStrings.hasPrefix dest.data "event:".data
            then dest.data.drop 6 else dest.data)).drop 1))
       else String.mk
         (if GoStrings.hasPrefix dest.data "event:".data
          then dest.data.drop 6 else dest.data)) := by
  unfold extractEventFromDestination
  by_cases he : dest = ""
  · subst he
    rfl
  · rw [if_neg he]
    have hpos : 0 < (GoStrings.splitChar '/'
        (if GoStrings.hasPrefix dest.data "event:".data
         then dest.data.drop 6 else dest.data)).length :=
      List.length_pos.mpr (GoStrings.splitChar_ne_nil '/' _)
    rw [if_pos hpos]
    by_cases hlt : 1 < (GoStrings.splitChar '/'
        (if GoStrings.hasPrefix dest.data "event:".data
         then dest.data.drop 6 else dest.data)).length
    · rw [if_pos hlt, if_pos hlt]
    · rw [if_neg hlt, if_neg hlt]
      have hone : (GoStrings.splitChar '/'
          (if GoStrings.hasPrefix dest.data "event:".data
           then dest.data.drop 6 else dest.data)).length = 1 := by omega
      rw [GoStrings.splitChar_length_one '/' _ hone]
      rfl

end Webhook

/-- The spec's words for C4's service clause: the source text after the
first '/' (empty when there is no '/'). -/
def afterFirstSlash (s : String) : String :=
  match s.data.dropWhile (fun x => x != '/') with
  | [] => ""
  | _ :: t => String.mk t

/-- A WRP webhook delivery whose source has two '/' separators. -/
def c4msg : Rpc.WrpMessage :=
  { type := 4, source := "mac:1/svc/extra",
    destination := "event:Blizzard/Time/TimerElapsed", serviceName := "",
    transactionUUID := "", contentType := "", payload := "P" }

/-- C4 counterexample: for the source "mac:1/svc/extra" the published
service is the second segment "svc", not the text after the first '/'
("svc/extra") that the claim prescribes. -/
theorem webhook_event_extraction_counterexample :
    (Webhook.wrpToEvent c4msg).service = "svc" ∧
    afterFirstSlash c4msg.source = "svc/extra" ∧
    (Webhook.wrpToEvent c4msg).service ≠ afterFirstSlash c4msg.source := by
  refine ⟨by decide, by decide, by decide⟩

/-- C4 (amended): the event published on the webhook msgpack parse path
has device equal to the source up to the first '/'; service equal to the
second '/'-separated segment of the source (the text after the first '/'
up to the next '/'), defaulting to "BlizzardRDK" when absent or empty;
event name equal to the destination with one leading "event:" stripped,
split on '/', joining the parts after the first with '.' when there are at
least 2 parts, else the whole remainder, defaulting to "Unknown" when
empty; and payload equal to the WRP payload. -/
theorem webhook_event_extraction (msg : Rpc.WrpMessage) :
    (Webhook.wrpToEvent msg).device =
      String.mk (msg.source.data.takeWhile (fun x => x != '/')) ∧
    (Webhook.wrpToEvent msg).service =
      (match msg.source.data.dropWhile (fun x => x != '/') with
       | [] => "BlizzardRDK"
       | _ :: t =>
         if t.takeWhile (fun x => x != '/') = [] then "BlizzardRDK"
         else String.mk (t.takeWhile (fun x => x != '/'))) ∧
    (Webhook.wrpToEvent msg).name =
      (let rem := if GoStrings.hasPrefix msg.destination.data "event:".data
                  then msg.destination.data.drop 6 else msg.destination.data
       let name0 := if 2 ≤ (GoStrings.splitChar '/' rem).length
                    then String.mk (GoStrings.joinChar '.'
                      ((GoStrings.splitChar '/' rem).drop 1))
                    else String.mk rem
       if name0 = "" then "Unknown" else name0) ∧
    (Webhook.wrpToEvent msg).payload = msg.payload := by
  refine ⟨?_, ?_, ?_, rfl⟩
  · show Webhook.extractDeviceFromSource msg.source = _
    exact Webhook.extractDevice_spec msg.source
  · show (if Webhook.extractServiceFromSource msg.source = ""
        then "BlizzardRDK" else Webhook.extractServiceFromSource msg.source) = _
    rw [Webhook.extractService_spec]
    cases hd : msg.source.data.dropWhile (fun x => x != '/') with
    | nil => rfl
    | cons y t =>
      by_cases ht : t.takeWhile (fun x => x != '/') = []
      · simp [ht]
      · have hne : String.mk (t.takeWhile (fun x => x != '/')) ≠ "" := by
          intro hcontra
          exact ht ((stringMk_eq_empty_iff _).mp hcontra)
        simp [ht, hne]
  · show (if Webhook.extractEventFromDestination msg.destination = ""
        then "Unknown" else Webhook.extractEventFromDestination msg.destination) = _
    rw [Webhook.extractEvent_spec]
    rfl

namespace Webhook

/-- IncomingEvent (src/internal/webhook/config.go lines 136-141), the JSON
envelope form of a webhook delivery. -/
structure IncomingEvent where
  device : String
  service : String
  name : String
  payload : String
deriving Repr, DecidableEq

/-- The parts of the inbound HTTP request read by the webhook Handler:
method, Content-Type, the body read result (error models a failing body
read), and the four headers consulted by the fallback path. -/
structure HttpRequest where
  method : String
  contentType : String
  body : Except String String
  hXmidtDevice : String
  hDeviceID : String
  hEventName : String
  hService : String

/-- The header-fallback event (src/internal/webhook/config.go lines
207-221): device from X-Xmidt-Device or X-Device-ID (trimmed), event name
from X-Event-Name defaulting to Unknown, service from X-Service defaulting
to BlizzardRDK, payload the raw body. -/
def headerEvent (req : HttpRequest) (body : String) : Events.Event :=
  let device0 := if req.hXmidtDevice = "" then req.hDeviceID else req.hXmidtDevice
  let name := if req.hEventName = "" then "Unknown" else req.hEventName
  let service := if req.hService = "" then "BlizzardRDK" else req.hService
  { device := String.mk (GoStrings.trimSpace device0.data), service := service,
    name := name, payload := body }

/-- The JSON-envelope and header-fallback paths of the Handler
(src/internal/webhook/config.go lines 197-224). `jsonDecode` is
json.Unmarshal into IncomingEvent. -/
def jsonOrHeader (jsonDecode : String → Option IncomingEvent)
    (req : HttpRequest) (body : String) : Nat × List Events.Event :=
  match jsonDecode body with
  | some evt =>
    if evt.device ≠ "" ∧ evt.name ≠ "" then
      (202, [{ device := evt.device, service := evt.service, name := evt.name,
               payload := evt.payload }])
    else (202, [headerEvent req body])
  | none => (202, [headerEvent req body])

/-- The webhook ingestion Handler (src/internal/webhook/config.go lines
145-225): POST only (405 otherwise), 400 on a body read failure, body
capped at 512 KiB, then the msgpack WRP path, the JSON envelope path and
the header fallback in order; the result is the HTTP status and the list
of events published to the bus. `wrpDecode` is the msgpack WRP decoder. -/
def webhookHandler (wrpDecode : String → Option Rpc.WrpMessage)
    (jsonDecode : String → Option IncomingEvent)
    (req : HttpRequest) : Nat × List Events.Event :=
  if req.method ≠ "POST" then (405, [])
  else
    match req.body with
    | Except.error _ => (400, [])
    | Except.ok raw =>
      let body := String.mk (raw.data.take (512 * 1024))
      if GoStrings.containsSub req.contentType.data "msgpack".data = true ∧
          0 < body.data.length then
        match wrpDecode body with
        | some msg => (202, [wrpToEvent msg])
        | none => jsonOrHeader jsonDecode req body
      else jsonOrHeader jsonDecode req body

/-- The single event published for an accepted delivery: the three parse
paths in order — binary WRP when the Content-Type mentions msgpack, the
body is non-empty and it decodes; then the JSON envelope requiring
non-empty device and name; then the header fallback, which always
succeeds. -/
def webhookEventOf (wrpDecode : String → Option Rpc.WrpMessage)
    (jsonDecode : String → Option IncomingEvent)
    (req : HttpRequest) (body : String) : Events.Event :=
  match (if GoStrings.containsSub req.contentType.data "msgpack".data = true ∧
      0 < body.data.length then wrpDecode body else none) with
  | some msg => wrpToEvent msg
  | none =>
    match jsonDecode body with
    | some evt =>
      if evt.device ≠ "" ∧ evt.name ≠ "" then
        { device := evt.device, service := evt.service, name := evt.name,
          payload := evt.payload }
      else headerEvent req body
    | none => headerEvent req body

end Webhook

/-- C7: the webhook ingestion endpoint accepts POST only (405 for any
other method), answers 400 on a body read failure, reads the body with a
512 KiB cap, and for every accepted delivery publishes exactly one event —
chosen by trying the msgpack WRP path, the JSON envelope path (requiring
non-empty device and name) and the always-succeeding header fallback in
order — and answers 202. -/
theorem webhook_ingestion (wrpDecode : String → Option Rpc.WrpMessage)
    (jsonDecode : String → Option Webhook.IncomingEvent)
    (req : Webhook.HttpRequest) :
    Webhook.webhookHandler wrpDecode jsonDecode req =
      if req.method ≠ "POST" then (405, [])
      else
        match req.body with
        | Except.error _ => (400, [])
        | Except.ok raw =>
          (202, [Webhook.webhookEventOf wrpDecode jsonDecode req
            (String.mk (raw.data.take (512 * 1024)))]) := by
  unfold Webhook.webhookHandler Webhook.webhookEventOf Webhook.jsonOrHeader
  by_cases hm : req.method ≠ "POST"
  · rw [if_pos hm, if_pos hm]
  · rw [if_neg hm, if_neg hm]
    cases hb : req.body with
    | error e => rfl
    | ok raw =>
      dsimp only
      by_cases hwrp : GoStrings.containsSub req.contentType.data "msgpack".data = true ∧
          0 < (String.mk ((raw.data).take (512 * 1024))).data.length
      · rw [if_pos hwrp, if_pos hwrp]
        cases hd : wrpDecode (String.mk ((raw.data).take (512 * 1024))) with
        | some msg => rfl
        | none =>
          cases jsonDecode (String.mk ((raw.data).take (512 * 1024))) with
          | some evt =>
            by_cases hev : evt.device ≠ "" ∧ evt.name ≠ "" <;> simp [hev]
          | none => rfl
      · rw [if_neg hwrp, if_neg hwrp]
        cases jsonDecode (String.mk ((raw.data).take (512 * 1024))) with
        | some evt =>
          by_cases hev : evt.device ≠ "" ∧ evt.name ≠ "" <;> simp [hev]
        | none => rfl

namespace Ws

/-- One inbound read on the session socket: a read error, a control frame
(neither text nor binary), or a data frame carrying a payload. -/
inductive Frame
  | readErr
  | control (payload : String)
  | data (payload : String)
deriving Repr, DecidableEq

/-- One message written on the session socket; the synthetic Gateway.Ack
notification is recorded by method and correlation id (its fresh uuid is
nondeterministic and omitted). -/
inductive OutMsg
  | resp (r : Rpc.Response)
  | notif (method : String) (correlationId : String)
deriving Repr, DecidableEq

/-- One iteration of the client read loop (src/internal/ws/handler.go
lines 163-184): a read error closes the done channel and ends the session;
control frames are skipped; a data frame is parsed — on failure
writeError(nil, -32600, err) is written and the loop continues — otherwise
the dispatcher response is written, followed by the optional Gateway.Ack.
The Bool result is whether the session keeps reading. -/
def sessionStep (unmarshal : String → Except String Rpc.Request)
    (handle : Rpc.Request → Rpc.Response) (ackEnabled : Bool) :
    Frame → List OutMsg × Bool
  | Frame.readErr => ([], false)
  | Frame.control _ => ([], true)
  | Frame.data payload =>
    match Rpc.ParseRequest unmarshal payload with
    | Except.error e =>
      ([OutMsg.resp { jsonrpc := "2.0", id := "", result := none,
                      error := some { code := -32600, message := e,
                                      data := Rpc.ErrData.noData } }],
       true)
    | Except.ok req =>
      ((if ackEnabled then
          [OutMsg.resp (handle req), OutMsg.notif "Gateway.Ack" req.id]
        else [OutMsg.resp (handle req)]), true)

end Ws

/-- C9: ParseRequest fails exactly when the input does not unmarshal, the
version tag differs from "2.0", or the method is empty; and on every data
frame whose ParseRequest fails, the session writes exactly one JSON-RPC
error response with code -32600, the underlying parse failure as message
and no id (the nil id serializes as an absent field), and continues
reading. -/
theorem parse_request_failures :
    (∀ (unmarshal : String → Except String Rpc.Request) (raw : String),
      (∃ e, Rpc.ParseRequest unmarshal raw = Except.error e) ↔
      ((∃ e, unmarshal raw = Except.error e) ∨
       (∃ r, unmarshal raw = Except.ok r ∧ (r.jsonrpc ≠ "2.0" ∨ r.method = "")))) ∧
    (∀ (unmarshal : String → Except String Rpc.Request)
       (handle : Rpc.Request → Rpc.Response) (ack : Bool) (payload e : String),
      Rpc.ParseRequest unmarshal payload = Except.error e →
      Ws.sessionStep unmarshal handle ack (Ws.Frame.data payload) =
        ([Ws.OutMsg.resp { jsonrpc := "2.0", id := "", result := none,
                           error := some { code := -32600, message := e,
                                           data := Rpc.ErrData.noData } }],
         true)) := by
  constructor
  · intro unmarshal raw
    cases hu : unmarshal raw with
    | error e =>
      constructor
      · intro _
        exact Or.inl ⟨e, rfl⟩
      · intro _
        exact ⟨e, by simp [Rpc.ParseRequest, hu]⟩
    | ok r =>
      constructor
      · rintro ⟨e2, he2⟩
        by_cases h20 : r.jsonrpc = "2.0"
        · by_cases hme : r.method = ""
          · exact Or.inr ⟨r, rfl, Or.inr hme⟩
          · simp [Rpc.ParseRequest, hu, h20, hme] at he2
        · exact Or.inr ⟨r, rfl, Or.inl h20⟩
      · rintro (⟨e2, he2⟩ | ⟨r2, hr2, hbad⟩)
        · cases he2
        · injection hr2 with hr2
          subst hr2
          by_cases h20 : r.jsonrpc = "2.0"
          · rcases hbad with hb | hme
            · exact absurd h20 hb
            · exact ⟨"method required", by simp [Rpc.ParseRequest, hu, h20, hme]⟩
          · exact ⟨"unsupported jsonrpc version",
              by simp [Rpc.ParseRequest, hu, h20]⟩
  · intro unmarshal handle ack payload e hpe
    unfold Ws.sessionStep
    dsimp only
    rw [hpe]

/-- A concrete unmarshal that fails on the frame "bad". -/
def u0 : String → Except String Rpc.Request := fun s =>
  if s = "bad" then Except.error "invalid json" else Except.ok fakeReq

/-- Witness for C9: the failing frame "bad" produces the single -32600
response and the session continues. -/
theorem parse_request_failures_witness :
    Rpc.ParseRequest u0 "bad" = Except.error "invalid json" ∧
    Ws.sessionStep u0 Rpc.EchoDispatcher.Handle false (Ws.Frame.data "bad") =
      ([Ws.OutMsg.resp { jsonrpc := "2.0", id := "", result := none,
                         error := some { code := -32600, message := "invalid json",
                                         data := Rpc.ErrData.noData } }],
       true) :=
  ⟨rfl, parse_request_failures.2 u0 Rpc.EchoDispatcher.Handle false "bad"
    "invalid json" rfl⟩
